import Mathlib

/-
Verification of the python-vm repository's specification against its code.

The repository ships the example scripts under src/examples/; the evaluation
engine itself (Value model, Environment chain, Comparison Evaluator,
Assignment/Mutation Resolver, Pattern Matcher, Generator State Machine) is
described by the specification but its source is not under src/.  The
definitions below therefore fall in two groups:

- translations of the example programs themselves (trace, fibonacci, the
  classify match cases, the lifecycle_gen behaviour, the concrete initial
  states of the aug-assign scripts), taken from the .py files under
  src/examples/; and
- models of the missing evaluation engine, each marked
  "Modelled from the spec:" and faithful to the cited section of spec.md.
-/

set_option maxRecDepth 8000

namespace PyVM

/-- Modelled from the spec: the runtime Value model of spec section 3 — a
closed tagged union.  List is a reference-identity type, represented by an
index into a heap of list storages; Tuple is an immutable container whose
elements keep their own identity semantics.  Mapping, Set, Generator-handle
and Callable variants are not needed by any claim and are omitted. -/
inductive Value where
  | int : Int → Value
  | bool : Bool → Value
  | str : String → Value
  | listRef : Nat → Value
  | tuple : List Value → Value
  | none : Value

/-- Modelled from the spec: the shared mutable storage behind List values
(spec section 3, "List ... shared-by-reference").  `lists[r]` is the current
contents of the List with reference identity `r`. -/
structure Heap where
  lists : List (List Value)

/-- Allocate a fresh List storage, returning the new heap and the reference. -/
def Heap.alloc (h : Heap) (elems : List Value) : Heap × Nat :=
  (⟨h.lists ++ [elems]⟩, h.lists.length)

/-- Contents of the List with reference `r`, if allocated. -/
def Heap.deref (h : Heap) (r : Nat) : Option (List Value) :=
  h.lists[r]?

/-- Replace the contents of the List with reference `r`. -/
def Heap.setList (h : Heap) (r : Nat) (elems : List Value) : Heap :=
  ⟨h.lists.set r elems⟩

/-- Modelled from the spec: the error kinds of spec section 7. -/
inductive Err where
  | unresolvedName
  | unsupportedOperation
  | exhaustedGenerator
  | generatorProtocolViolation
  | unhandledPropagatedException

/-- Modelled from the spec: value equality between runtime Values
(used by the `is` test of spec section 3: reference identity for List,
value identity for Integer/Boolean/String/Tuple, a Tuple comparing its
elements under their own identity rules). -/
def valueEqb : Value → Value → Bool
  | .int a, .int b => a == b
  | .bool a, .bool b => a == b
  | .str a, .str b => a == b
  | .listRef a, .listRef b => a == b
  | .tuple as, .tuple bs => go as bs
  | .none, .none => true
  | _, _ => false
where go : List Value → List Value → Bool
  | [], [] => true
  | a :: as, b :: bs => valueEqb a b && go as bs
  | _, _ => false

/-! ### Comparison Evaluator (spec section 4.1) -/

/-- Modelled from the spec: the relational operators of a chained
comparison (spec section 4.1). -/
inductive CmpOp where
  | lt | le | gt | ge

/-- Apply one relational operator to two integer operands. -/
def CmpOp.apply : CmpOp → Int → Int → Bool
  | .lt, a, b => decide (a < b)
  | .le, a, b => decide (a ≤ b)
  | .gt, a, b => decide (b < a)
  | .ge, a, b => decide (b ≤ a)

/-- An operand expression of a chain, represented by its observable effect:
the output lines emitted when (and only when) it is evaluated, paired with
the Value it evaluates to. -/
def Operand := List String × Int

/-- Modelled from the spec: the loop of the Comparison Evaluator
(spec section 4.1).  `prev` is the most recently evaluated operand, `out`
the output emitted so far.  For each remaining `(OP_i, o_{i+1})`: evaluate
`o_{i+1}` (emitting its output), apply `OP_i` to the two most recently
evaluated operands, and stop immediately with result false if the
comparison fails; remaining operands are then never evaluated. -/
def evalChainAux (prev : Int) (out : List String) :
    List (CmpOp × Operand) → List String × Bool
  | [] => (out, true)
  | (op, o) :: rest =>
      if op.apply prev o.2 then evalChainAux o.2 (out ++ o.1) rest
      else (out ++ o.1, false)

/-- Modelled from the spec: the Comparison Evaluator's contract
(spec section 4.1) — evaluate `o1`, then fold the remaining
operator/operand pairs left to right with short-circuit on first failure.
Returns the emitted output together with the truth value of the chain. -/
def evalChain (first : Operand) (rest : List (CmpOp × Operand)) :
    List String × Bool :=
  evalChainAux first.2 first.1 rest

/-- Translated from src/examples/compiler_killer_chained_compare.py:
`trace(val)` prints `load {val}` and returns `val`. -/
def trace (val : Int) : Operand :=
  (["load " ++ toString val], val)

/-! ### fibonacci (src/examples/fibonacci.py) -/

/-- Translated from src/examples/fibonacci.py: the recursive fibonacci
function.  Its acceptance by Lean's termination checker (measure `n.toNat`)
is the termination argument: `n ≤ 1` covers every non-positive argument and
both recursive calls strictly decrease `n.toNat`. -/
def fibonacci (n : Int) : Int :=
  if n ≤ 1 then n
  else fibonacci (n - 1) + fibonacci (n - 2)
termination_by n.toNat
decreasing_by
  · omega
  · omega

/-! ### Assignment/Mutation Resolver (spec section 4.2) -/

/-- Modelled from the spec: the capability query of spec section 9
(`supports_inplace_combine`) — true for the reference-identity container
types; of those, only List is modelled here. -/
def supports_inplace_combine : Value → Bool
  | .listRef _ => true
  | _ => false

/-- The elements of a sequence Value (List via the heap, or Tuple). -/
def seqElems (h : Heap) : Value → Option (List Value)
  | .listRef r => h.deref r
  | .tuple es => Option.some es
  | _ => Option.none

/-- Modelled from the spec: step 2 of spec section 4.2 — the in-place
combination for `+=` on a List: mutate that Value's storage directly (append
the right-hand side's elements); the "new value" is the same Value. -/
def inplaceCombine (h : Heap) (r : Nat) (rhs : Value) : Heap :=
  match h.deref r, seqElems h rhs with
  | Option.some cur, Option.some add => h.setList r (cur ++ add)
  | _, _ => h

/-- Modelled from the spec: step 3 of spec section 4.2 — the ordinary binary
operation fallback for types without in-place combination, producing a fresh
Value.  Only integer addition is modelled; no claim exercises this step. -/
def binaryCombine : Value → Value → Option Value
  | .int a, .int b => Option.some (.int (a + b))
  | _, _ => Option.none

/-- Outcome of the store attempted in step 4 of spec section 4.2. -/
inductive StoreResult where
  | ok
  | failed : Err → StoreResult

/-- A name Environment frame: ordered name/Value bindings. -/
def Env := List (String × Value)

/-- Look a name up in an Environment frame. -/
def lookupVar (env : Env) (nm : String) : Option Value :=
  List.lookup nm env

/-- Rebind a name in an Environment frame (step 4 of spec section 4.2 for a
bare-name target). -/
def rebindVar (env : Env) (nm : String) (v : Value) : Env :=
  match env with
  | [] => []
  | (n, w) :: rest =>
      if n = nm then (n, v) :: rest else (n, w) :: rebindVar rest nm v

/-- Modelled from the spec: the Assignment/Mutation Resolver of spec
section 4.2 for a bare-name target `nm OP= rhs`.  Step 1 evaluates the
target (name lookup); step 2 mutates in place when the current Value
supports in-place combination, keeping the same identity; step 3 otherwise
computes a fresh Value; step 4 rebinds the name.  Steps 2/3 always complete
before step 4 is attempted. -/
def augAssignName (env : Env) (h : Heap) (nm : String) (rhs : Value) :
    (Env × Heap) × StoreResult :=
  match lookupVar env nm with
  | Option.none => ((env, h), .failed .unresolvedName)
  | Option.some cur =>
      if supports_inplace_combine cur then
        match cur with
        | .listRef r =>
            ((rebindVar env nm cur, inplaceCombine h r rhs), .ok)
        | _ => ((env, h), .failed .unsupportedOperation)
      else
        match binaryCombine cur rhs with
        | Option.some fresh => ((rebindVar env nm fresh, h), .ok)
        | Option.none => ((env, h), .failed .unsupportedOperation)

/-- Element `idx` of a container Value (step 1 of spec section 4.2 for a
subscript target). -/
def getItem (h : Heap) (container : Value) (idx : Nat) : Option Value :=
  match seqElems h container with
  | Option.some es => es[idx]?
  | Option.none => Option.none

/-- Modelled from the spec: step 4 of spec section 4.2 for a subscript
target — storing into a List element succeeds; storing into a Tuple element
fails with the `TypeError`-equivalent `UnsupportedOperation` because the
container is immutable. -/
def storeItem (h : Heap) (container : Value) (idx : Nat) (v : Value) :
    Heap × StoreResult :=
  match container with
  | .listRef r =>
      match h.deref r with
      | Option.some es => (h.setList r (es.set idx v), .ok)
      | Option.none => (h, .failed .unsupportedOperation)
  | .tuple _ => (h, .failed .unsupportedOperation)
  | _ => (h, .failed .unsupportedOperation)

/-- Modelled from the spec: the Assignment/Mutation Resolver of spec
section 4.2 for a container-subscript target `container[idx] OP= rhs`.
Step 1 evaluates the target to its current Value; step 2 mutates in place
when supported; step 4 then attempts the store back into the container.
The critical ordering invariant: the mutation of step 2 completes before
step 4 is attempted, so a failed store leaves the mutated heap in place. -/
def augAssignSubscript (h : Heap) (container : Value) (idx : Nat)
    (rhs : Value) : Heap × StoreResult :=
  match getItem h container idx with
  | Option.none => (h, .failed .unsupportedOperation)
  | Option.some cur =>
      if supports_inplace_combine cur then
        match cur with
        | .listRef r =>
            let h := inplaceCombine h r rhs
            storeItem h container idx cur
        | _ => (h, .failed .unsupportedOperation)
      else
        match binaryCombine cur rhs with
        | Option.some fresh => storeItem h container idx fresh
        | Option.none => (h, .failed .unsupportedOperation)

/-! ### The tuple aug-assign program (src/examples/compiler_killer_tuple_assign.py) -/

/-- Translated from src/examples/compiler_killer_tuple_assign.py line 2:
after `t = ([10],)` the heap holds one List storage `[10]` (reference 0). -/
def tupleProgHeap : Heap := ⟨[[.int 10]]⟩

/-- Translated from src/examples/compiler_killer_tuple_assign.py line 2:
the Value bound to `t` — a Tuple holding the List with reference 0. -/
def tupleProgT : Value := .tuple [.listRef 0]

/-- Translated from src/examples/compiler_killer_tuple_assign.py line 4:
evaluating the literal `[20]` allocates a fresh List storage. -/
def tupleProgRhsAlloc : Heap × Nat := tupleProgHeap.alloc [.int 20]

/-- Translated from src/examples/compiler_killer_tuple_assign.py line 4:
the statement `t[0] += [20]`, run by the Assignment/Mutation Resolver. -/
def tupleProgRun : Heap × StoreResult :=
  augAssignSubscript tupleProgRhsAlloc.1 tupleProgT 0
    (.listRef tupleProgRhsAlloc.2)

/-! ### The list aug-assign program (src/examples/compiler_killer_list_aug_assign.py) -/

/-- Translated from src/examples/compiler_killer_list_aug_assign.py
lines 2–3: after `l1 = [1]` and `l2 = l1` both names are bound to the same
List reference 0, whose storage holds `[1]`. -/
def listProgEnv : Env := [("l1", .listRef 0), ("l2", .listRef 0)]

/-- Heap after `l1 = [1]`: one List storage `[1]` at reference 0. -/
def listProgHeap : Heap := ⟨[[.int 1]]⟩

/-- Translated from src/examples/compiler_killer_list_aug_assign.py line 4:
evaluating the literal `[2]` allocates a fresh List storage. -/
def listProgRhsAlloc : Heap × Nat := listProgHeap.alloc [.int 2]

/-- Translated from src/examples/compiler_killer_list_aug_assign.py line 4:
the statement `l1 += [2]`, run by the Assignment/Mutation Resolver. -/
def listProgRun : (Env × Heap) × StoreResult :=
  augAssignName listProgEnv listProgRhsAlloc.1 "l1"
    (.listRef listProgRhsAlloc.2)

/-! ### Pattern Matcher (spec section 4.3) -/

/-- Modelled from the spec: the Pattern variants of spec section 3 —
LiteralSet (ordered set of literal Values), SequenceDestructure (fixed
arity, ordered bind-names), Wildcard. -/
inductive Pattern where
  | literalSet : List Value → Pattern
  | seqDestructure : Nat → List String → Pattern
  | wildcard : Pattern

/-- Modelled from the spec: matching one Pattern against a subject Value
(spec section 4.3).  LiteralSet matches iff the subject equals any listed
literal; SequenceDestructure matches iff the subject is a sequence-like
Value (List or Tuple) of exactly the given arity, binding each name to the
corresponding element; Wildcard always matches and binds nothing.  On a
match the resulting bindings are returned. -/
def matchPattern (h : Heap) : Pattern → Value → Option (List (String × Value))
  | .literalSet vs, v =>
      if vs.any (fun lit => valueEqb v lit) then Option.some [] else Option.none
  | .seqDestructure arity names, v =>
      match seqElems h v with
      | Option.some es =>
          if es.length = arity then Option.some (names.zip es) else Option.none
      | Option.none => Option.none
  | .wildcard, _ => Option.some []

/-- Modelled from the spec: ordered pattern trial with first-match commit
(spec sections 4.3 and 9) — a pure function over the (Pattern, action) list
returning the first successful (bindings, action) pair. -/
def firstMatch {α : Type} (h : Heap) (v : Value) :
    List (Pattern × α) → Option (List (String × Value) × α)
  | [] => Option.none
  | (p, act) :: rest =>
      match matchPattern h p v with
      | Option.some binds => Option.some (binds, act)
      | Option.none => firstMatch h v rest

/-- Translated from src/examples/compiler_killer_match.py: the three cases
of `classify` — `case 0 | 1: return "small"`, `case [a, b]: return a + b`,
`case _: return "other"`.  Each action is the evaluation of the case body
under the bindings the pattern produced. -/
def classifyCases : List (Pattern × (List (String × Value) → Option Value)) :=
  [ (.literalSet [.int 0, .int 1], fun _ => Option.some (.str "small")),
    (.seqDestructure 2 ["a", "b"], fun binds =>
        match List.lookup "a" binds, List.lookup "b" binds with
        | Option.some (.int x), Option.some (.int y) =>
            Option.some (.int (x + y))
        | _, _ => Option.none),
    (.wildcard, fun _ => Option.some (.str "other")) ]

/-- Translated from src/examples/compiler_killer_match.py: `classify`,
running the subject through the ordered cases and executing the first
matching case's body. -/
def classify (h : Heap) (v : Value) : Option Value :=
  match firstMatch h v classifyCases with
  | Option.some (binds, act) => act binds
  | Option.none => Option.none

/-- Heap for the call `classify([2, 3])`: the literal `[2, 3]` allocates
one List storage (reference 0). -/
def classifyHeap : Heap := ⟨[[.int 2, .int 3]]⟩

/-! ### Scope Resolver (spec section 4.4) -/

/-- Modelled from the spec: the kind of an Environment (spec section 3) —
a class body's Environment is a distinct kind from other Environments. -/
inductive EnvKind where
  | module | classBody | comprehension
deriving DecidableEq

/-- An Environment frame: its kind and its name bindings. -/
structure Frame where
  kind : EnvKind
  bindings : Env

/-- A scope chain, innermost frame first. -/
def Scope := List Frame

/-- Modelled from the spec: walking the enclosing chain (spec section 3) —
ordinary nested scopes do not see a class-body Environment's names, so
class-body frames are skipped once lookup has left the current frame. -/
def lookupOuter : Scope → String → Option Value
  | [], _ => Option.none
  | f :: rest, nm =>
      if f.kind = .classBody then lookupOuter rest nm
      else
        match lookupVar f.bindings nm with
        | Option.some v => Option.some v
        | Option.none => lookupOuter rest nm

/-- Modelled from the spec: name lookup (spec section 3) — the current
frame's own bindings are always visible; outer frames are walked with
class-body frames invisible. -/
def lookupName : Scope → String → Option Value
  | [], _ => Option.none
  | f :: rest, nm =>
      match lookupVar f.bindings nm with
      | Option.some v => Option.some v
      | Option.none => lookupOuter rest nm

/-- An atomic expression: a name or a string literal. -/
inductive Atom where
  | name : String → Atom
  | strLit : String → Atom

/-- Evaluate an atomic expression in a scope. -/
def evalAtom (sc : Scope) : Atom → Option Value
  | .name nm => lookupName sc nm
  | .strLit s => Option.some (.str s)

/-- Evaluate a list of atomic expressions left to right. -/
def evalAtoms (sc : Scope) : List Atom → Option (List Value)
  | [] => Option.some []
  | a :: rest =>
      match evalAtom sc a, evalAtoms sc rest with
      | Option.some v, Option.some vs => Option.some (v :: vs)
      | _, _ => Option.none

/-- An expression: an atom or a list literal. -/
inductive Expr where
  | atom : Atom → Expr
  | listLit : List Atom → Expr

/-- Evaluate an expression in a scope; a list literal allocates a fresh
List storage. -/
def evalExpr (h : Heap) (sc : Scope) : Expr → Option (Heap × Value)
  | .atom a => (evalAtom sc a).map (fun v => (h, v))
  | .listLit as =>
      match evalAtoms sc as with
      | Option.some vs =>
          let p := h.alloc vs
          Option.some (p.1, .listRef p.2)
      | Option.none => Option.none

/-- Modelled from the spec: the comprehension body loop (spec section 4.4)
— for each element of the outer iterable, a private Environment frame
binding the comprehension variable is entered, with its enclosing link
pointing to the scope lexically containing the comprehension, and the body
expression is evaluated there. -/
def compBody (sc : Scope) (var : String) (body : Atom) :
    List Value → Option (List Value)
  | [] => Option.some []
  | v :: rest =>
      match evalAtom (⟨.comprehension, [(var, v)]⟩ :: sc) body,
            compBody sc var body rest with
      | Option.some w, Option.some ws => Option.some (w :: ws)
      | _, _ => Option.none

/-- Modelled from the spec: list-comprehension evaluation
`[BODY for var in OUTER_ITER]` (spec section 4.4).  OUTER_ITER is evaluated
before the private Environment is entered — in the directly enclosing
Environment, even when that is a class-body Environment; the body is then
evaluated under the private Environment, and the results are collected into
a fresh List. -/
def evalListComp (h : Heap) (sc : Scope) (var : String) (outerIter : Expr)
    (body : Atom) : Option (Heap × Value) :=
  match evalExpr h sc outerIter with
  | Option.none => Option.none
  | Option.some (h1, itv) =>
      match seqElems h1 itv with
      | Option.none => Option.none
      | Option.some elems =>
          match compBody sc var body elems with
          | Option.none => Option.none
          | Option.some vs =>
              let p := h1.alloc vs
              Option.some (p.1, .listRef p.2)

/-- Translated from src/examples/compiler_killer_class_comp_iterable.py:
the scope active in the body of `class A` after `val = "success"` — a
class-body Environment inside the module Environment. -/
def classAScope : Scope :=
  [⟨.classBody, [("val", .str "success")]⟩, ⟨.module, []⟩]

/-- Translated from src/examples/compiler_killer_class_comp_iterable.py
line 5: evaluating `result = [x for x in [val]]` in the class body. -/
def classAResult : Option (Heap × Value) :=
  evalListComp ⟨[]⟩ classAScope "x" (.listLit [.name "val"]) (.name "x")

/-! ### Generator State Machine (spec section 4.5), specialised to
src/examples/compiler_killer_generator_lifecycle.py's `lifecycle_gen` -/

/-- The suspension points of `lifecycle_gen`: at `yield "start"` (inside
the try, with the ValueError handler and the finally active) and at
`yield "caught"` (inside the except block, with the finally active). -/
inductive GenPos where
  | atYieldStart
  | atYieldCaught

/-- Modelled from the spec: the generator states of spec section 4.5.
`Running` is a transient state of the synchronous calls and is not
observable between them, so it is not represented. -/
inductive GenState where
  | notStarted
  | suspended : GenPos → GenState
  | completed

/-- The exceptions the lifecycle scripts mention. -/
inductive Exc where
  | valueError
  | typeError

/-- Outcome of one `advance()`/`throw()` call: a yielded Value, the
exhaustion signal (StopIteration / ExhaustedGenerator), or a propagated
exception. -/
inductive GenOutcome where
  | yielded : String → GenOutcome
  | exhausted
  | raised : Exc → GenOutcome

/-- Modelled from the spec: `advance()` of spec section 4.5, applied to the
body of `lifecycle_gen` (translated from
src/examples/compiler_killer_generator_lifecycle.py lines 1–7).  From
`NotStarted` the body runs to `yield "start"`.  Resuming at either yield
with a plain advance runs off the end of the try (or except) block, so the
`finally` prints "cleaned up" and the fall-through is exposed as the
exhaustion signal.  Advancing a `Completed` generator signals exhaustion.
Returns (new state, output printed inside the body, outcome). -/
def lifecycleAdvance : GenState → GenState × List String × GenOutcome
  | .notStarted => (.suspended .atYieldStart, [], .yielded "start")
  | .suspended .atYieldStart => (.completed, ["cleaned up"], .exhausted)
  | .suspended .atYieldCaught => (.completed, ["cleaned up"], .exhausted)
  | .completed => (.completed, [], .exhausted)

/-- Whether `except ValueError` catches the exception. -/
def catchesValueError : Exc → Bool
  | .valueError => true
  | .typeError => false

/-- Modelled from the spec: `throw(exception)` of spec section 4.5 applied
to `lifecycle_gen`.  From `Suspended(atYieldStart)` the exception is raised
at the yield: a ValueError is caught by the handler, whose body yields
"caught" — the new Suspended state; any other exception runs the `finally`
and propagates.  From `Suspended(atYieldCaught)` no handler encloses the
yield, so the `finally` runs and the exception propagates. -/
def lifecycleThrow (s : GenState) (e : Exc) :
    GenState × List String × GenOutcome :=
  match s with
  | .notStarted => (.completed, [], .raised e)
  | .suspended .atYieldStart =>
      if catchesValueError e then (.suspended .atYieldCaught, [], .yielded "caught")
      else (.completed, ["cleaned up"], .raised e)
  | .suspended .atYieldCaught => (.completed, ["cleaned up"], .raised e)
  | .completed => (.completed, [], .raised e)

/-- Outcome of a `close()` call: normal return (close must not raise when
the body terminates in response), or the protocol violation signalled when
the body yields in response to the termination signal. -/
inductive CloseOutcome where
  | ok
  | protocolViolation

/-- Modelled from the spec: `close()` of spec section 4.5 applied to
`lifecycle_gen`.  From either Suspended point the injected termination
signal is not caught by `except ValueError`, the `finally` prints
"cleaned up", the body lets the signal propagate, the state becomes
`Completed`, and `close()` returns normally.  On `NotStarted` or
`Completed` it is a no-op. -/
def lifecycleClose : GenState → GenState × List String × CloseOutcome
  | .notStarted => (.notStarted, [], .ok)
  | .suspended _ => (.completed, ["cleaned up"], .ok)
  | .completed => (.completed, [], .ok)

/-- The lines the caller prints for a yielded value (`print(next(g))` /
`print(g.throw(...))`): the yielded string, nothing otherwise. -/
def printYield : GenOutcome → List String
  | .yielded v => [v]
  | _ => []

/-- Translated from src/examples/compiler_killer_generator_lifecycle.py
lines 10–16 ("Test Throw"): `g1 = lifecycle_gen()`, `print(next(g1))`,
`print(g1.throw(ValueError))`, then `next(g1)` with StopIteration caught.
Returns the observed output and the outcome of the final advance. -/
def throwTestRun : List String × GenOutcome :=
  let a1 := lifecycleAdvance .notStarted
  let a2 := lifecycleThrow a1.1 .valueError
  let a3 := lifecycleAdvance a2.1
  (a1.2.1 ++ printYield a1.2.2 ++ a2.2.1 ++ printYield a2.2.2 ++ a3.2.1,
   a3.2.2)

/-- Translated from src/examples/compiler_killer_generator_lifecycle.py
lines 19–22 ("Test Close"): `g2 = lifecycle_gen()`, `print(next(g2))`,
`g2.close()`, `print("closed")` — the last print runs because `close()`
returned without raising. -/
def closeTestRun : List String × CloseOutcome :=
  let a1 := lifecycleAdvance .notStarted
  let c := lifecycleClose a1.1
  (a1.2.1 ++ printYield a1.2.2 ++ c.2.1 ++
     (match c.2.2 with | .ok => ["closed"] | .protocolViolation => []),
   c.2.2)

/-! ### Eager and lazy comprehensions (src/examples/comprehensions.py) -/

/-- Modelled from the spec: the eager list-comprehension loop of spec
section 4.4 for `[f(x) for x in xs]` over integer sequences — bind the
variable to each element in turn, evaluate the body, collect the results
immediately. -/
def listCompRun (f : Int → Int) : List Int → List Int
  | [] => []
  | x :: rest => f x :: listCompRun f rest

/-- Modelled from the spec: a generator expression `(f(x) for x in xs)` as
a lazy state machine (spec section 4.5): the state is the remaining source
sequence; one advance either yields the mapped head together with the
successor state, or signals exhaustion. -/
def genExprNext (f : Int → Int) : List Int → Option (Int × List Int)
  | [] => Option.none
  | x :: rest => Option.some (f x, rest)

/-- Modelled from the spec: the `list(gen)` loop — advance the generator
repeatedly, collecting yielded values, until exhaustion.  `fuel` bounds the
number of advances so the loop is a total function; `consumeGen` supplies
enough fuel for full consumption. -/
def listOfGen (f : Int → Int) : Nat → List Int → List Int
  | _, [] => []
  | 0, _ :: _ => []
  | Nat.succ n, st =>
      match genExprNext f st with
      | Option.none => []
      | Option.some (v, rest) => v :: listOfGen f n rest

/-- Translated from src/examples/comprehensions.py line 28: `list(gen)` —
fully consume the generator expression. -/
def consumeGen (f : Int → Int) (xs : List Int) : List Int :=
  listOfGen f xs.length xs

/-- Translated from src/examples/comprehensions.py lines 26–27: the source
sequence `range(n)` as a list of integers. -/
def rangeList (n : Nat) : List Int :=
  (List.range n).map Int.ofNat

/-- Translated from src/examples/comprehensions.py line 26: the mapping
`x**2` of the generator expression and of the `squares` comprehension. -/
def square (x : Int) : Int := x ^ 2

/-! ## Helper lemmas -/

/-- The output of the chain loop extends the already-emitted output by a
prefix of the remaining operands' outputs concatenated in order: operands
are evaluated left to right, each at most once, and a short-circuit skips
every remaining operand. -/
theorem evalChainAux_out (rest : List (CmpOp × Operand)) :
    ∀ (prev : Int) (out : List String),
      ∃ t, (evalChainAux prev out rest).1 = out ++ t ∧
        t <+: (rest.map (fun p => p.2.1)).flatten := by
  induction rest with
  | nil =>
      intro prev out
      exact ⟨[], by simp [evalChainAux], by simp⟩
  | cons po rest ih =>
      intro prev out
      obtain ⟨op, o⟩ := po
      by_cases hc : op.apply prev o.2
      · obtain ⟨t, ht, hpre⟩ := ih o.2 (out ++ o.1)
        obtain ⟨s, hs⟩ := hpre
        refine ⟨o.1 ++ t, ?_, ?_⟩
        · simp only [evalChainAux, hc, if_true] at ht ⊢
          rw [ht, List.append_assoc]
        · exact ⟨s, by
            simp only [List.map_cons, List.flatten_cons, List.append_assoc, hs]⟩
      · refine ⟨o.1, by simp [evalChainAux, hc], ?_⟩
        simp only [List.map_cons, List.flatten_cons]
        exact List.prefix_append _ _

/-- `fibonacci` satisfies its defining recurrence. -/
theorem fibonacci_eq (n : Int) :
    fibonacci n = if n ≤ 1 then n else fibonacci (n - 1) + fibonacci (n - 2) := by
  rw [fibonacci]

/-- The base case of `fibonacci`: every argument `n ≤ 1` (in particular
every negative argument) is returned unchanged. -/
theorem fibonacci_base (n : Int) (h : n ≤ 1) : fibonacci n = n := by
  rw [fibonacci_eq]; simp [h]

/-- The recursive case of `fibonacci`. -/
theorem fibonacci_step (n : Int) (h : 1 < n) :
    fibonacci n = fibonacci (n - 1) + fibonacci (n - 2) := by
  rw [fibonacci_eq, if_neg (by omega)]

theorem fibonacci_two : fibonacci 2 = 1 := by
  rw [fibonacci_step 2 (by norm_num)]
  norm_num [fibonacci_base 1 (by norm_num), fibonacci_base 0 (by norm_num)]

theorem fibonacci_three : fibonacci 3 = 2 := by
  rw [fibonacci_step 3 (by norm_num)]
  norm_num [fibonacci_two, fibonacci_base 1 (by norm_num)]

theorem fibonacci_four : fibonacci 4 = 3 := by
  rw [fibonacci_step 4 (by norm_num)]
  norm_num [fibonacci_three, fibonacci_two]

theorem fibonacci_five : fibonacci 5 = 5 := by
  rw [fibonacci_step 5 (by norm_num)]
  norm_num [fibonacci_four, fibonacci_three]

theorem fibonacci_six : fibonacci 6 = 8 := by
  rw [fibonacci_step 6 (by norm_num)]
  norm_num [fibonacci_five, fibonacci_four]

theorem fibonacci_seven : fibonacci 7 = 13 := by
  rw [fibonacci_step 7 (by norm_num)]
  norm_num [fibonacci_six, fibonacci_five]

theorem fibonacci_eight : fibonacci 8 = 21 := by
  rw [fibonacci_step 8 (by norm_num)]
  norm_num [fibonacci_seven, fibonacci_six]

theorem fibonacci_nine : fibonacci 9 = 34 := by
  rw [fibonacci_step 9 (by norm_num)]
  norm_num [fibonacci_eight, fibonacci_seven]

/-- `firstMatch` is the find-first-matching-pattern function: it commits to
the first pattern in declaration order whose match succeeds and never tries
a later one. -/
theorem firstMatch_eq_find {α : Type} (h : Heap) (v : Value) :
    ∀ cs : List (Pattern × α),
      firstMatch h v cs =
        (cs.find? (fun c => (matchPattern h c.1 v).isSome)).bind
          (fun c => (matchPattern h c.1 v).map (fun b => (b, c.2))) := by
  intro cs
  induction cs with
  | nil => rfl
  | cons c rest ih =>
      obtain ⟨p, act⟩ := c
      cases hm : matchPattern h p v with
      | none => simp [firstMatch, List.find?, hm, ih]
      | some b => simp [firstMatch, List.find?, hm]

/-- With enough fuel, consuming the lazy generator expression produces the
eager comprehension's list. -/
theorem listOfGen_full (f : Int → Int) :
    ∀ (xs : List Int) (fuel : Nat), xs.length ≤ fuel →
      listOfGen f fuel xs = listCompRun f xs := by
  intro xs
  induction xs with
  | nil => intro fuel _; cases fuel <;> rfl
  | cons x rest ih =>
      intro fuel hlen
      cases fuel with
      | zero => simp at hlen
      | succ n =>
          simp only [listOfGen, genExprNext, listCompRun]
          rw [ih n (by simpa using hlen)]

/-! ## Claim theorems -/

/-- C1: chained comparisons evaluate operands left to right, each at most
once, stopping as soon as an intermediate comparison is false: the emitted
output is always a left-to-right prefix of the operands' outputs, and in
compiler_killer_chained_compare.py `trace(1) < trace(2) < trace(3)` emits
"load 1", "load 2", "load 3" and returns True, while
`trace(3) < trace(2) < trace(1)` emits exactly "load 3", "load 2" (the
third operand is never evaluated) and returns False. -/
theorem chained_compare_short_circuit :
    (∀ (first : Operand) (rest : List (CmpOp × Operand)),
        ∃ t, (evalChain first rest).1 = first.1 ++ t ∧
          t <+: (rest.map (fun p => p.2.1)).flatten) ∧
    evalChain (trace 1) [(.lt, trace 2), (.lt, trace 3)] =
      (["load 1", "load 2", "load 3"], true) ∧
    evalChain (trace 3) [(.lt, trace 2), (.lt, trace 1)] =
      (["load 3", "load 2"], false) :=
  ⟨fun first rest => evalChainAux_out rest first.2 first.1, rfl, rfl⟩

/-- C2: in `t = ([10],); t[0] += [20]` the in-place mutation of the List
completes before the store back into the immutable Tuple is attempted, so
the statement fails with the `TypeError`-kind `UnsupportedOperation`, yet
afterwards the List inside the tuple holds `[10, 20]` — the mutation
persisted despite the raised error. -/
theorem tuple_assign_mutates_then_fails :
    tupleProgRun =
      (⟨[[.int 10, .int 20], [.int 20]]⟩, .failed .unsupportedOperation) ∧
    tupleProgRun.1.deref 0 = Option.some [.int 10, .int 20] ∧
    getItem tupleProgRun.1 tupleProgT 0 = Option.some (.listRef 0) :=
  ⟨rfl, rfl, rfl⟩

/-- C3: on `lifecycle_gen`, `throw(ValueError)` from the suspension at
`yield "start"` raises the exception at the yield, the handler catches it
and the body yields "caught", leaving the generator Suspended again; the
script's advance/throw/advance sequence observes "start", "caught",
"cleaned up", and the final advance signals exhaustion. -/
theorem generator_throw_lifecycle :
    lifecycleThrow (.suspended .atYieldStart) .valueError =
      (.suspended .atYieldCaught, [], .yielded "caught") ∧
    throwTestRun = (["start", "caught", "cleaned up"], .exhausted) :=
  ⟨rfl, rfl⟩

/-- C4: `l1 = [1]; l2 = l1; l1 += [2]` combines in place on the same List
Value: the statement succeeds, both names still hold the same reference
(so `l1 is l2` is True), and the shared storage holds `[1, 2]`. -/
theorem list_aug_assign_aliasing :
    listProgRun = ((listProgEnv, ⟨[[.int 1, .int 2], [.int 2]]⟩), .ok) ∧
    lookupVar listProgRun.1.1 "l1" = Option.some (.listRef 0) ∧
    lookupVar listProgRun.1.1 "l2" = Option.some (.listRef 0) ∧
    valueEqb (.listRef 0) (.listRef 0) = true ∧
    listProgRun.1.2.deref 0 = Option.some [.int 1, .int 2] :=
  ⟨rfl, rfl, rfl, rfl, rfl⟩

/-- C5: the outermost iterable of a comprehension in a class body is
evaluated in the class-body Environment, so `result = [x for x in [val]]`
inside `class A` with `val = "success"` succeeds and `result[0]` is
"success", even though ordinary name lookup from the comprehension's
private scope does not resolve `val`. -/
theorem class_comp_outer_iterable :
    classAResult =
      Option.some (⟨[[.str "success"], [.str "success"]]⟩, .listRef 1) ∧
    getItem ⟨[[.str "success"], [.str "success"]]⟩ (.listRef 1) 0 =
      Option.some (.str "success") ∧
    lookupName (⟨.comprehension, [("x", .str "success")]⟩ :: classAScope)
      "val" = Option.none :=
  ⟨rfl, rfl, rfl⟩

/-- C6: pattern matching tries the patterns in declaration order and
commits to the first match (`firstMatch` is the find-first function, so no
later pattern is ever tried): `classify([2, 3])` skips the literal pattern,
destructures `[a, b]` binding a = 2, b = 3, and returns 5; `classify(1)`
returns "small"; `classify("x")` is not sequence-like and falls through to
the wildcard, returning "other". -/
theorem match_first_commit :
    (∀ {α : Type} (h : Heap) (v : Value) (cs : List (Pattern × α)),
        firstMatch h v cs =
          (cs.find? (fun c => (matchPattern h c.1 v).isSome)).bind
            (fun c => (matchPattern h c.1 v).map (fun b => (b, c.2)))) ∧
    matchPattern classifyHeap (.literalSet [.int 0, .int 1]) (.listRef 0) =
      Option.none ∧
    (firstMatch classifyHeap (.listRef 0) classifyCases).map Prod.fst =
      Option.some [("a", Value.int 2), ("b", Value.int 3)] ∧
    classify classifyHeap (.listRef 0) = Option.some (.int 5) ∧
    classify ⟨[]⟩ (.int 1) = Option.some (.str "small") ∧
    classify ⟨[]⟩ (.str "x") = Option.some (.str "other") :=
  ⟨fun h v cs => firstMatch_eq_find h v cs, rfl, rfl, rfl, rfl, rfl⟩

/-- C7: `close()` on `lifecycle_gen` suspended at `yield "start"` runs the
active finally block (printing "cleaned up"), completes the generator and
does not raise; the close-test script observes exactly "start",
"cleaned up", then continues normally printing "closed". -/
theorem generator_close_lifecycle :
    lifecycleClose (.suspended .atYieldStart) =
      (.completed, ["cleaned up"], .ok) ∧
    closeTestRun = (["start", "cleaned up", "closed"], .ok) :=
  ⟨rfl, rfl⟩

/-- C8: normal fall-through of the generator body is exposed as an
exhaustion signal on the next advance rather than immediately — the throw
that was caught yields "caught" without signalling completion, the
subsequent advance runs the finally and signals exhaustion, the script's
final `next(g1)` observes exactly that StopIteration, and every advance on
an already-Completed generator signals exhaustion (never a silent no-op). -/
theorem generator_exhaustion_signal :
    (lifecycleThrow (.suspended .atYieldStart) .valueError).2.2 =
      .yielded "caught" ∧
    lifecycleAdvance (.suspended .atYieldCaught) =
      (.completed, ["cleaned up"], .exhausted) ∧
    lifecycleAdvance .completed = (.completed, [], .exhausted) ∧
    throwTestRun.2 = .exhausted :=
  ⟨rfl, rfl, rfl, rfl⟩

/-- C9: `fibonacci` is a total function on the integers (accepted by the
termination checker with measure `n.toNat`): it satisfies its defining
recurrence, returns `n` for every `n ≤ 1` (covering all negative
arguments), and the program's loop values `fibonacci(0..9)` are
0, 1, 1, 2, 3, 5, 8, 13, 21, 34. -/
theorem fibonacci_terminates_and_values :
    (∀ n : Int, fibonacci n =
        if n ≤ 1 then n else fibonacci (n - 1) + fibonacci (n - 2)) ∧
    (∀ n : Int, n ≤ 1 → fibonacci n = n) ∧
    (List.range 10).map (fun i => fibonacci i) =
      [0, 1, 1, 2, 3, 5, 8, 13, 21, 34] := by
  refine ⟨fibonacci_eq, fibonacci_base, ?_⟩
  rw [show List.range 10 = [0, 1, 2, 3, 4, 5, 6, 7, 8, 9] from rfl]
  simp only [List.map]
  norm_num [fibonacci_base 0 (by norm_num), fibonacci_base 1 (by norm_num),
    fibonacci_two, fibonacci_three, fibonacci_four, fibonacci_five,
    fibonacci_six, fibonacci_seven, fibonacci_eight, fibonacci_nine]

/-- Witness for C9: the theorem applied at the concrete negative argument
-7 discharges its base-case hypothesis. -/
theorem fibonacci_terminates_witness : fibonacci (-7) = -7 :=
  fibonacci_terminates_and_values.2.1 (-7) (by norm_num)

/-- C10: fully consuming the generator expression yields the same list as
the eager comprehension for every mapping and source sequence, and on
`x**2` over `range(5)` both produce `[0, 1, 4, 9, 16]`. -/
theorem gen_expr_eq_list_comp :
    (∀ (f : Int → Int) (xs : List Int), consumeGen f xs = listCompRun f xs) ∧
    consumeGen square (rangeList 5) = [0, 1, 4, 9, 16] ∧
    listCompRun square (rangeList 5) = [0, 1, 4, 9, 16] :=
  ⟨fun f xs => listOfGen_full f xs xs.length (Nat.le_refl _),
   by decide, by decide⟩

end PyVM
